import Mathlib

/-!
Verification development for the rasp_rea schedule-to-calendar pipeline
(src/schedule_parser.py and friends).  Python strings are modelled as
`List Char`; Python functions are translated into executable Lean
definitions; machine-independent behaviour (the system clock, the
process-randomised string hash) is passed in as explicit parameters.
-/

namespace Rasp

/-- Abbreviation turning a string literal into the character-list model
of a Python string. -/
def S (s : String) : List Char := s.data

/-- Whitespace test modelling the whitespace class used by Python's
str.split, str.strip and the regex class for space characters on the
characters that occur in this pipeline (ASCII whitespace plus the
no-break space U+00A0). -/
def pyIsSpace (c : Char) : Bool :=
  c = ' ' || c = '\t' || c = '\n' || c = '\r' ||
  c = '\x0b' || c = '\x0c' || c = ' '

/-- ASCII decimal-digit test modelling the regex digit class on the
ASCII input this pipeline sees. -/
def pyIsDigit (c : Char) : Bool :=
  '0' ≤ c && c ≤ '9'

/-- Lowercasing of one character, modelling Python str.lower on the
alphabets that occur in this pipeline: ASCII letters and the Cyrillic
block А-Я plus Ё; every other character is left unchanged. -/
def pyLowerChar (c : Char) : Char :=
  if 'A' ≤ c && c ≤ 'Z' then Char.ofNat (c.toNat + 32)
  else if 'А' ≤ c && c ≤ 'Я' then Char.ofNat (c.toNat + 32)
  else if c = 'Ё' then 'ё'
  else c

/-- Uppercasing of one character, modelling Python str.upper on ASCII
letters and the Cyrillic block а-я plus ё. -/
def pyUpperChar (c : Char) : Char :=
  if 'a' ≤ c && c ≤ 'z' then Char.ofNat (c.toNat - 32)
  else if 'а' ≤ c && c ≤ 'я' then Char.ofNat (c.toNat - 32)
  else if c = 'ё' then 'Ё'
  else c

/-- Lowercasing of a whole string (Python str.lower). -/
def pyLower (cs : List Char) : List Char := cs.map pyLowerChar

/-- Stripping of leading and trailing whitespace (Python str.strip with
no argument). -/
def pyStrip (cs : List Char) : List Char :=
  List.rdropWhile pyIsSpace (cs.dropWhile pyIsSpace)

/-- Stripping of leading and trailing characters drawn from an explicit
set (Python str.strip with an argument). -/
def pyStripChars (bad : List Char) (cs : List Char) : List Char :=
  ((cs.dropWhile (bad.contains ·)).reverse.dropWhile (bad.contains ·)).reverse

/-- Helper for whitespace splitting: walks the characters keeping the
reversed current token in the accumulator. -/
def pySplitWsAux : List Char → List Char → List (List Char)
  | [], acc => if acc = [] then [] else [acc.reverse]
  | c :: cs, acc =>
    if pyIsSpace c then
      if acc = [] then pySplitWsAux cs []
      else acc.reverse :: pySplitWsAux cs []
    else pySplitWsAux cs (c :: acc)

/-- Whitespace splitting (Python str.split with no argument): maximal
runs of non-whitespace characters, empty tokens discarded. -/
def pySplitWs (cs : List Char) : List (List Char) := pySplitWsAux cs []

/-- Single-character global replacement (Python str.replace where the
needle is one character): every occurrence of c is replaced by rep. -/
def replaceChar (c : Char) (rep : List Char) (cs : List Char) : List Char :=
  cs.flatMap (fun x => if x = c then rep else [x])

/-- Model of BeautifulSoup stripped_strings: each raw text fragment is
stripped of surrounding whitespace and empty fragments are dropped. -/
def strippedStrings (raw : List (List Char)) : List (List Char) :=
  (raw.map pyStrip).filter (· ≠ [])

/-! ### escape_ics (src/schedule_parser.py lines 580-588) -/

/-- Translation of escape_ics: four sequential single-character
replacements, in the source's order (backslash, semicolon, comma,
newline). -/
def escape_ics (value : List Char) : List Char :=
  replaceChar '\n' (S "\\n")
    (replaceChar ',' (S "\\,")
      (replaceChar ';' (S "\\;")
        (replaceChar '\\' (S "\\\\") value)))

/-- Checker for the calendar text-value grammar: scans the string; a
backslash must start a two-character escape pair (backslash, semicolon,
comma, or the letter n), and every character outside a pair must be
neither a backslash, semicolon, comma, nor newline. -/
def isEscapedText : List Char → Bool
  | [] => true
  | c :: rest =>
    if c = '\\' then
      match rest with
      | [] => false
      | c2 :: rest2 => (c2 = '\\' || c2 = ';' || c2 = ',' || c2 = 'n') && isEscapedText rest2
    else !(c = ';' || c = ',' || c = '\n') && isEscapedText rest

/-- Per-character escaping table equivalent to the four sequential
replacements of escape_ics (proved below). -/
def escChar (c : Char) : List Char :=
  if c = '\\' then S "\\\\"
  else if c = ';' then S "\\;"
  else if c = ',' then S "\\,"
  else if c = '\n' then S "\\n"
  else [c]

/-! ### build_event_alarms (src/schedule_parser.py lines 421-437) -/

/-- Decimal digit rendering of a natural number (Python str on a
non-negative int). -/
def natDigits (n : Nat) : List Char := Nat.toDigits 10 n

/-- Translation of build_event_alarms: one alarm block 10 minutes before
start when the pair number is 2 or 3, otherwise two blocks at 70 and 10
minutes before start; each block is five iCalendar lines. -/
def build_event_alarms (pair_number : Option Int) : List (List Char) :=
  let reminders : List Int :=
    if pair_number = some 2 ∨ pair_number = some 3 then [-10] else [-70, -10]
  reminders.flatMap (fun minutes =>
    [ S "BEGIN:VALARM",
      S "ACTION:DISPLAY",
      S "TRIGGER:-PT" ++ natDigits minutes.natAbs ++ S "M",
      S "DESCRIPTION:Напоминание",
      S "END:VALARM" ])

/-! ### slugify_group_name (src/schedule_parser.py lines 591-606) -/

/-- Model of unicodedata NFKD normalisation followed by removal of
combining marks, on the alphabets this pipeline sees: ASCII and the
basic Cyrillic letters are unchanged (they have no compatibility
decompositions); the two precomposed Cyrillic letters with diacritics
decompose and lose their combining mark. -/
def pyNFKDStripCombining (cs : List Char) : List Char :=
  cs.map (fun c => if c = 'й' then 'и' else if c = 'ё' then 'е' else c)

/-- Helper for run collapsing: the flag records whether we are inside a
run of underscores whose first element was already emitted. -/
def collapseUnderscoresAux : List Char → Bool → List Char
  | [], _ => []
  | c :: rest, inRun =>
    if c = '_' then
      if inRun then collapseUnderscoresAux rest true
      else '_' :: collapseUnderscoresAux rest true
    else c :: collapseUnderscoresAux rest false

/-- Collapse of maximal runs of underscores to a single underscore
(the regex substitution of one-or-more underscores). -/
def collapseUnderscores (cs : List Char) : List Char :=
  collapseUnderscoresAux cs false

/-- Translation of slugify_group_name: lowercase, normalise, strip
combining marks, replace the path separators and the three Cyrillic
letters of the group-code grammar, replace every character outside
[a-z0-9_.] by an underscore, collapse repeated underscores, strip
leading and trailing dots and underscores, and fall back to the literal
slug "schedule" when nothing remains. -/
def slugify_group_name (group : List Char) : List Char :=
  let normalized := pyNFKDStripCombining (pyLower group)
  let t1 :=
    replaceChar 'м' (S "m")
      (replaceChar 'г' (S "g")
        (replaceChar 'д' (S "d")
          (replaceChar '-' (S "_")
            (replaceChar ' ' (S "_")
              (replaceChar '/' (S "_") normalized)))))
  let t2 := t1.map (fun c =>
    if ('a' ≤ c && c ≤ 'z') || ('0' ≤ c && c ≤ '9') || c = '_' || c = '.'
    then c else '_')
  let t3 := pyStripChars (S "._") (collapseUnderscores t2)
  if t3 = [] then S "schedule" else t3

/-- Checker that no two adjacent characters are both separator
characters (underscore or dot) — the separator-only-once property of
the slug spec. -/
def noAdjacentSeparators : List Char → Bool
  | c1 :: c2 :: rest =>
    !((c1 = '_' || c1 = '.') && (c2 = '_' || c2 = '.')) && noAdjacentSeparators (c2 :: rest)
  | _ => true

/-! ### Data model: dates, times, ScheduleEvent (src/schedule_parser.py 83-96) -/

/-- Calendar date (datetime.date): year, month, day, no time component.
Fields are integers; validity is a separate predicate. -/
structure Date where
  year : Int
  month : Int
  day : Int
deriving DecidableEq, Repr

/-- Time of day (datetime.time as produced by strptime with hours and
minutes only, seconds implicitly zero). -/
structure Time where
  hour : Int
  minute : Int
deriving DecidableEq, Repr

/-- Range check matching what datetime.time accepts. -/
def validTime (t : Time) : Bool :=
  0 ≤ t.hour && t.hour ≤ 23 && 0 ≤ t.minute && t.minute ≤ 59

/-- Strict comparison of times of day (Python compares time objects
field-lexicographically). -/
def timeLtb (a b : Time) : Bool :=
  a.hour < b.hour || (a.hour = b.hour && a.minute < b.minute)

/-- Translation of the ScheduleEvent dataclass. -/
structure ScheduleEvent where
  date : Date
  start_time : Time
  end_time : Time
  title : List Char
  lesson_type : Option (List Char) := none
  teacher : Option (List Char) := none
  location : Option (List Char) := none
  extra_info : Option (List Char) := none
  element_id : Option (List Char) := none
  pair_number : Option Int := none
deriving DecidableEq, Repr

/-! ### Timeslot parsing (src/schedule_parser.py 263-305) -/

/-- Numeric value of an ASCII digit character. -/
def digitVal (c : Char) : Nat := c.toNat - 48

/-- Value of a non-empty ASCII digit run (Python int on a digit string). -/
def digitsToNat (ds : List Char) : Nat :=
  ds.foldl (fun n c => 10 * n + digitVal c) 0

/-- Full-match test for the time-token regex: exactly two digits, a
colon, and two digits. -/
def isHHMM (tok : List Char) : Bool :=
  match tok with
  | [a, b, c, d, e] =>
    pyIsDigit a && pyIsDigit b && c = ':' && pyIsDigit d && pyIsDigit e
  | _ => false

/-- Translation of strptime with the hour-minute format on a candidate
token: shape check plus the range validation strptime performs (hour at
most 23, minute at most 59); out-of-range values raise there, modelled
as none. -/
def parseHHMM (tok : List Char) : Option Time :=
  match tok with
  | [a, b, c, d, e] =>
    if pyIsDigit a && pyIsDigit b && c = ':' && pyIsDigit d && pyIsDigit e then
      if 10 * digitVal a + digitVal b ≤ 23 && 10 * digitVal d + digitVal e ≤ 59 then
        some ⟨((10 * digitVal a + digitVal b : Nat) : Int), ((10 * digitVal d + digitVal e : Nat) : Int)⟩
      else none
    else none
  | _ => none

/-- Leftmost search for the pair-ordinal regex (a digit run, optional
whitespace, then the literal word пара) in an already lowercased
string; yields the numeric value of the digit run of the leftmost
match. -/
def searchPairNum : List Char → Option Nat
  | [] => none
  | c :: rest =>
    if pyIsDigit c then
      let digits := c :: rest.takeWhile pyIsDigit
      let afterWs := (rest.dropWhile pyIsDigit).dropWhile pyIsSpace
      if (S "пара").isPrefixOf afterWs then some (digitsToNat digits)
      else searchPairNum rest
    else searchPairNum rest

/-- Python " ".join of string fragments. -/
def joinSpace (parts : List (List Char)) : List Char :=
  List.intercalate [' '] parts

/-- Translation of extract_pair_number: try every fragment and finally
the space-join of all fragments; the first fragment whose lowercase
form contains the pair-ordinal pattern wins. -/
def extract_pair_number (parts : List (List Char)) : Option Int :=
  (parts ++ [joinSpace parts]).findSome?
    (fun part => (searchPairNum (pyLower part)).map Int.ofNat)

/-- Translation of parse_timeslot.  The cell is modelled as the list of
raw text fragments under the td element (none when the row has no td).
Fragments are stripped, tokenised on whitespace after replacing
no-break spaces, the pair number is extracted from fragments plus
tokens, and the first two tokens of time shape are parsed; fewer than
two tokens, or a strptime failure, yields no times. -/
def parse_timeslot (cell : Option (List (List Char))) :
    Option Time × Option Time × Option Int :=
  match cell with
  | none => (none, none, none)
  | some raw =>
    let parts := strippedStrings raw
    let tokens := parts.flatMap (fun part => pySplitWs (replaceChar (Char.ofNat 160) [' '] part))
    let pair := extract_pair_number (parts ++ tokens)
    match tokens.filter isHHMM with
    | t0 :: t1 :: _ =>
      match parseHHMM t0, parseHHMM t1 with
      | some st, some en => (some st, some en, pair)
      | _, _ => (none, none, pair)
    | _ => (none, none, pair)

/-- Translation of clean_location: join the chunks, replace newlines by
spaces, and normalise all whitespace runs to single spaces. -/
def clean_location (chunks : List (List Char)) : List Char :=
  joinSpace (pySplitWs (replaceChar '\n' [' '] (joinSpace chunks)))

/-- Translation of build_event_from_row.  DOM access is modelled by the
already-extracted ingredients: whether the anchor has a parent table
row, the raw text fragments of the row's first td (none when absent),
the raw text fragments under the anchor, the date parsed from the
table header, the anchor's element id attribute, and the two detail
fields fetched over the network. -/
def build_event_from_row (hasRow : Bool) (timeCellRaw : Option (List (List Char)))
    (anchorRaw : List (List Char)) (date : Date) (element_id : Option (List Char))
    (teacher extra_info : Option (List Char)) : Option ScheduleEvent :=
  if !hasRow then none
  else
    match parse_timeslot timeCellRaw with
    | (some start_time, some end_time, pair_number) =>
      match strippedStrings anchorRaw with
      | [] => none
      | title :: rest =>
        some { date := date, start_time := start_time, end_time := end_time,
               title := title, lesson_type := rest.head?,
               location := if 1 < rest.length then some (clean_location rest.tail) else none,
               teacher := teacher, extra_info := extra_info,
               element_id := element_id, pair_number := pair_number }
    | _ => none

/-! ### Calendar arithmetic (model of datetime.date / datetime.datetime) -/

/-- Gregorian leap-year rule (as in the datetime module). -/
def isLeap (y : Int) : Bool :=
  ((y % 4 == 0) && (y % 100 != 0)) || (y % 400 == 0)

/-- One when the year is leap, zero otherwise. -/
def leapAdj (y : Int) : Int := if isLeap y then 1 else 0

/-- Length of a month in the given year. -/
def daysInMonth (y m : Int) : Int :=
  if m = 1 then 31
  else if m = 2 then 28 + leapAdj y
  else if m = 3 then 31
  else if m = 4 then 30
  else if m = 5 then 31
  else if m = 6 then 30
  else if m = 7 then 31
  else if m = 8 then 31
  else if m = 9 then 30
  else if m = 10 then 31
  else if m = 11 then 30
  else 31

/-- Days in the given year strictly before the first of the month. -/
def daysBeforeMonth (y m : Int) : Int :=
  if m = 1 then 0
  else if m = 2 then 31
  else if m = 3 then 59 + leapAdj y
  else if m = 4 then 90 + leapAdj y
  else if m = 5 then 120 + leapAdj y
  else if m = 6 then 151 + leapAdj y
  else if m = 7 then 181 + leapAdj y
  else if m = 8 then 212 + leapAdj y
  else if m = 9 then 243 + leapAdj y
  else if m = 10 then 273 + leapAdj y
  else if m = 11 then 304 + leapAdj y
  else 334 + leapAdj y

/-- Proleptic-Gregorian ordinal of a date (date.toordinal: the first of
January of year one is day one). -/
def toOrdinal (d : Date) : Int :=
  365 * (d.year - 1) + (d.year - 1) / 4 - (d.year - 1) / 100 + (d.year - 1) / 400
    + daysBeforeMonth d.year d.month + d.day

/-- Calendar validity of a date record. -/
def validDate (d : Date) : Bool :=
  1 ≤ d.month && d.month ≤ 12 && 1 ≤ d.day && d.day ≤ daysInMonth d.year d.month

/-- Day-of-week index with Monday as zero (date.weekday). -/
def pyWeekday (d : Date) : Int := (toOrdinal d - 1) % 7

/-- Previous calendar day. -/
def prevDay (d : Date) : Date :=
  if 1 < d.day then ⟨d.year, d.month, d.day - 1⟩
  else if 1 < d.month then ⟨d.year, d.month - 1, daysInMonth d.year (d.month - 1)⟩
  else ⟨d.year - 1, 12, 31⟩

/-- Next calendar day. -/
def nextDay (d : Date) : Date :=
  if d.day < daysInMonth d.year d.month then ⟨d.year, d.month, d.day + 1⟩
  else if d.month < 12 then ⟨d.year, d.month + 1, 1⟩
  else ⟨d.year + 1, 1, 1⟩

/-- Timezone-aware datetime as Python holds it: naive local fields plus
the zone's UTC offset in minutes.  Europe/Moscow is modelled with the
constant offset of one hundred eighty minutes, which is the source's
own fixed-offset fallback and the zone's actual offset for all dates
the site serves (the zone has had no transitions since 2014). -/
structure AwareDT where
  date : Date
  time : Time
  offMin : Int
deriving DecidableEq, Repr

/-- Minutes since the proleptic epoch of the UTC instant an aware
datetime denotes. -/
def utcInstantMin (a : AwareDT) : Int :=
  toOrdinal a.date * 1440 + a.time.hour * 60 + a.time.minute - a.offMin

/-- Conversion of an aware datetime to UTC (datetime.astimezone with
the UTC target): subtract the offset from the wall-clock minutes and
carry into the date when the result leaves the day. -/
def astimezoneUTC (a : AwareDT) : AwareDT :=
  let t := a.time.hour * 60 + a.time.minute - a.offMin
  if t < 0 then ⟨prevDay a.date, ⟨(t + 1440) / 60, (t + 1440) % 60⟩, 0⟩
  else if 1440 ≤ t then ⟨nextDay a.date, ⟨(t - 1440) / 60, (t - 1440) % 60⟩, 0⟩
  else ⟨a.date, ⟨t / 60, t % 60⟩, 0⟩

/-! ### ICS builder (src/schedule_parser.py 375-533) -/

/-- Zero-padded two-digit rendering of a small non-negative integer
(strftime field). -/
def pad2 (n : Int) : List Char :=
  let s := natDigits n.toNat
  if s.length < 2 then '0' :: s else s

/-- Zero-padded four-digit rendering of a year (strftime %Y as CPython
prints it). -/
def pad4 (n : Int) : List Char :=
  let s := natDigits n.toNat
  List.replicate (4 - s.length) '0' ++ s

/-- Decimal rendering of an integer (Python str on an int). -/
def intStr (i : Int) : List Char :=
  if i < 0 then '-' :: natDigits i.natAbs else natDigits i.natAbs

/-- Rendering of naive datetime fields with the compact
year-month-day-T-hour-minute-second strftime pattern used for both
dialects; seconds are always zero here. -/
def fmtBasic (d : Date) (t : Time) : List Char :=
  pad4 d.year ++ pad2 d.month ++ pad2 d.day ++ S "T" ++ pad2 t.hour ++ pad2 t.minute ++ S "00"

/-- Python str of an aware Moscow datetime (hash input for the UID
fallback): date, space, time with seconds, and the +03:00 offset
suffix. -/
def strOfAware (a : AwareDT) : List Char :=
  pad4 a.date.year ++ S "-" ++ pad2 a.date.month ++ S "-" ++ pad2 a.date.day ++ S " "
    ++ pad2 a.time.hour ++ S ":" ++ pad2 a.time.minute ++ S ":00+03:00"

/-- Mobile-dialect DTSTART line: local wall-clock fields qualified by
the Moscow timezone identifier. -/
def dtstartLineMobile (d : Date) (t : Time) : List Char :=
  S "DTSTART;TZID=Europe/Moscow:" ++ fmtBasic d t

/-- Mobile-dialect DTEND line. -/
def dtendLineMobile (d : Date) (t : Time) : List Char :=
  S "DTEND;TZID=Europe/Moscow:" ++ fmtBasic d t

/-- Google-dialect DTSTART line: the Moscow wall-clock instant converted
to UTC and suffixed with Z. -/
def dtstartLineGoogle (d : Date) (t : Time) : List Char :=
  let u := astimezoneUTC ⟨d, t, 180⟩
  S "DTSTART:" ++ fmtBasic u.date u.time ++ S "Z"

/-- Google-dialect DTEND line. -/
def dtendLineGoogle (d : Date) (t : Time) : List Char :=
  let u := astimezoneUTC ⟨d, t, 180⟩
  S "DTEND:" ++ fmtBasic u.date u.time ++ S "Z"

/-- Substring containment (the Python in operator on strings). -/
def containsSub (needle : List Char) : List Char → Bool
  | [] => needle.isPrefixOf []
  | c :: rest => needle.isPrefixOf (c :: rest) || containsSub needle rest

/-- The SUBJECT_SHORTCUTS abbreviation table. -/
def SUBJECT_SHORTCUTS : List (List Char × List Char) :=
  [ (S "Организация предоставления государственных услуг", S "ОПГУ"),
    (S "Организация экспертных, общественных советов, проведение экспертиз", S "ОргСоветов"),
    (S "Партийно-политические элиты и электоральные процессы", S "ППЭЭП"),
    (S "Репутационный менеджмент в государственном управлении", S "РМГУ"),
    (S "Политическая имиджелогия", S "ПИ"),
    (S "Кризис-менеджмент: лидерство в условиях кризиса или конфликта", S "КМ"),
    (S "Общественное мнение и политическое лидерство", S "ОМПЛ"),
    (S "Технологии государственного контроля и аудита", S "ТГКА"),
    (S "Проектное управление в государственном секторе", S "ПУГС") ]

/-- Dictionary get with the title itself as default. -/
def lookupShortcut (title : List Char) : List Char :=
  match SUBJECT_SHORTCUTS.find? (fun p => p.1 = title) with
  | some p => p.2
  | none => title

/-- The GOOGLE_COLOR_MAP lookup with empty-string default. -/
def colorForKind (kind : List Char) : List Char :=
  if kind = S "seminar" then S "#F4511E"
  else if kind = S "lecture" then S "#F6BF26"
  else if kind = S "exam" then S "#D50000"
  else []

/-- Translation of detect_lesson_kind: substring tests on the
lowercased lesson-type label; an absent or empty label is the other
kind. -/
def detect_lesson_kind (lesson_type : Option (List Char)) : List Char :=
  match lesson_type with
  | none => S "other"
  | some s =>
    if s = [] then S "other"
    else
      let normalized := pyLower s
      if containsSub (S "лекц") normalized then S "lecture"
      else if containsSub (S "практичес") normalized || containsSub (S "лаборатор") normalized then S "seminar"
      else if containsSub (S "зач") normalized || containsSub (S "экзам") normalized then S "exam"
      else S "other"

/-- Translation of resolve_lesson_letter. -/
def resolve_lesson_letter (lesson_type : Option (List Char)) (kind : List Char) : List Char :=
  match lesson_type with
  | none => S "Д"
  | some s =>
    if s = [] then S "Д"
    else
      let normalized := pyLower s
      if kind = S "lecture" then S "Л"
      else if kind = S "seminar" then S "С"
      else if containsSub (S "экзам") normalized then S "Э"
      else if containsSub (S "зач") normalized then S "З"
      else match s with
        | c :: _ => [pyUpperChar c]
        | [] => S "Д"

/-- Translation of build_event_summary: the per-letter counter map is
threaded explicitly; returns the summary text, the colour hint, and
the updated counters. -/
def build_event_summary (ev : ScheduleEvent) (counters : List Char → Nat) :
    (List Char × List Char) × (List Char → Nat) :=
  let kind := detect_lesson_kind ev.lesson_type
  let letter := resolve_lesson_letter ev.lesson_type kind
  let n := counters letter + 1
  let counters2 := fun x => if x = letter then n else counters x
  let summary := letter ++ natDigits n ++ S " " ++ lookupShortcut ev.title
  ((summary, colorForKind kind), counters2)

/-- Description assembly from build_ics: labelled teacher and location
lines plus the raw extra information, joined by newlines; Python
truthiness drops absent and empty fields. -/
def buildDescription (ev : ScheduleEvent) : List Char :=
  let part1 : List (List Char) :=
    match ev.teacher with
    | some t => if t = [] then [] else [S "Преподаватель: " ++ t]
    | none => []
  let part2 : List (List Char) :=
    match ev.location with
    | some l => if l = [] then [] else [S "Аудитория: " ++ l]
    | none => []
  let part3 : List (List Char) :=
    match ev.extra_info with
    | some e => if e = [] then [] else [e]
    | none => []
  List.intercalate ['\n'] (part1 ++ part2 ++ part3)

/-- Per-event VEVENT block of build_ics.  The Python hash builtin is
process-randomised, so it enters as an explicit parameter, as does the
generation timestamp. -/
def eventBlock (pyHash : List Char → Int) (dtstamp : List Char) (target : List Char)
    (ev : ScheduleEvent) (summary color : List Char) : List (List Char) :=
  let uidBody : List Char :=
    match ev.element_id with
    | some id => if id = [] then intStr (pyHash (summary ++ strOfAware ⟨ev.date, ev.start_time, 180⟩)) else id
    | none => intStr (pyHash (summary ++ strOfAware ⟨ev.date, ev.start_time, 180⟩))
  [ S "BEGIN:VEVENT",
    S "UID:" ++ uidBody ++ S "@rasp.rea.ru",
    S "DTSTAMP:" ++ dtstamp,
    S "SUMMARY:" ++ escape_ics summary,
    (if target = S "google" then dtstartLineGoogle ev.date ev.start_time
     else dtstartLineMobile ev.date ev.start_time),
    (if target = S "google" then dtendLineGoogle ev.date ev.end_time
     else dtendLineMobile ev.date ev.end_time),
    S "DESCRIPTION:" ++ escape_ics (buildDescription ev),
    S "LOCATION:" ++ escape_ics (match ev.location with | some l => l | none => []) ]
  ++ (if target = S "mobile" then
        (if color = [] then [] else [S "COLOR:" ++ color]) else [])
  ++ (if target = S "mobile" then build_event_alarms ev.pair_number else [])
  ++ [S "END:VEVENT"]

/-- Stable comparison key of the sort in build_ics: date then start
time (Python tuple comparison of the date and time objects; on valid
dates the ordinal order used here coincides with Python's field order). -/
def eventKeyLe (a b : ScheduleEvent) : Bool :=
  toOrdinal a.date < toOrdinal b.date ||
    (toOrdinal a.date = toOrdinal b.date &&
      (timeLtb a.start_time b.start_time || a.start_time = b.start_time))

/-- Stable insertion into a key-sorted list. -/
def insertEvent (x : ScheduleEvent) : List ScheduleEvent → List ScheduleEvent
  | [] => [x]
  | y :: ys => if eventKeyLe x y then x :: y :: ys else y :: insertEvent x ys

/-- Stable sort by date and start time (Python sorted with the key of
build_ics). -/
def sortEvents : List ScheduleEvent → List ScheduleEvent
  | [] => []
  | x :: xs => insertEvent x (sortEvents xs)

/-- Event loop of build_ics: walks the sorted events threading the
per-letter counters and concatenating the event blocks. -/
def buildEventLines (pyHash : List Char → Int) (dtstamp : List Char) (target : List Char) :
    (List Char → Nat) → List ScheduleEvent → List (List Char)
  | _, [] => []
  | counters, ev :: rest =>
    let r := build_event_summary ev counters
    eventBlock pyHash dtstamp target ev r.1.1 r.1.2
      ++ buildEventLines pyHash dtstamp target r.2 rest

/-- Calendar preamble of build_ics, including the mobile VTIMEZONE
block or the UTC calendar timezone marker. -/
def calendarHeader (target : List Char) : List (List Char) :=
  [ S "BEGIN:VCALENDAR",
    S "VERSION:2.0",
    S "PRODID:-//REA Schedule Parser//EN",
    S "CALSCALE:GREGORIAN",
    S "METHOD:PUBLISH" ]
  ++ (if target = S "mobile" then
        [ S "X-WR-TIMEZONE:Europe/Moscow",
          S "BEGIN:VTIMEZONE",
          S "TZID:Europe/Moscow",
          S "BEGIN:STANDARD",
          S "DTSTART:19300101T000000",
          S "TZOFFSETFROM:+0300",
          S "TZOFFSETTO:+0300",
          S "TZNAME:MSK",
          S "END:STANDARD",
          S "END:VTIMEZONE" ]
      else [S "X-WR-TIMEZONE:UTC"])

/-- Outcome of build_ics: the guard paths return without producing any
calendar text (logging a warning for an empty event list and an error
for an unknown dialect), the normal path produces the full line list
that the function writes to disk. -/
inductive BuildIcsResult where
  | emptyEvents
  | unknownTarget
  | ok (lines : List (List Char))
deriving DecidableEq, Repr

/-- Translation of build_ics.  Filesystem effects (directory creation,
the final write) are outside the model; the produced value is the
content the function writes, joined from these lines. -/
def build_ics (pyHash : List Char → Int) (dtstamp : List Char)
    (events : List ScheduleEvent) (target : List Char) : BuildIcsResult :=
  if events = [] then .emptyEvents
  else if target ≠ S "mobile" ∧ target ≠ S "google" then .unknownTarget
  else .ok (calendarHeader target
    ++ buildEventLines pyHash dtstamp target (fun _ => 0) (sortEvents events)
    ++ [S "END:VCALENDAR"])

/-! ### Weekly formatter (src/schedule_parser.py 536-577) -/

/-- Membership of a date in the Monday-to-Sunday window containing the
reference date.  Python subtracts the weekday from the reference date
and compares date objects; on valid dates that comparison is exactly
the ordinal comparison used here. -/
def inWeek (ref : Date) (d : Date) : Bool :=
  let startOrd := toOrdinal ref - pyWeekday ref
  startOrd ≤ toOrdinal d && toOrdinal d ≤ startOrd + 6

/-- English weekday name (strftime %A in the C locale). -/
def weekdayName (d : Date) : List Char :=
  let w := pyWeekday d
  if w = 0 then S "Monday"
  else if w = 1 then S "Tuesday"
  else if w = 2 then S "Wednesday"
  else if w = 3 then S "Thursday"
  else if w = 4 then S "Friday"
  else if w = 5 then S "Saturday"
  else S "Sunday"

/-- Day heading line (strftime with weekday name, day, month, year). -/
def fmtHeaderDate (d : Date) : List Char :=
  weekdayName d ++ S ", " ++ pad2 d.day ++ S "." ++ pad2 d.month ++ S "." ++ pad4 d.year

/-- Hour-minute rendering (strftime %H:%M). -/
def fmtHM (t : Time) : List Char := pad2 t.hour ++ S ":" ++ pad2 t.minute

/-- One lesson line of the weekly digest; the optional segments are
omitted for absent or empty fields (Python truthiness). -/
def eventLine (ev : ScheduleEvent) : List Char :=
  S "  " ++ fmtHM ev.start_time ++ S "–" ++ fmtHM ev.end_time ++ S " " ++ ev.title
  ++ (match ev.lesson_type with
      | some lt => if lt = [] then [] else S " (" ++ lt ++ S ")"
      | none => [])
  ++ (match ev.teacher with
      | some t => if t = [] then [] else S " — " ++ t
      | none => [])
  ++ (match ev.location with
      | some l => if l = [] then [] else S " [" ++ l ++ S "]"
      | none => [])

/-- Dates of the events in order of first occurrence (the insertion
order of the grouping dictionary). -/
def uniqueDatesAux : List ScheduleEvent → List Date → List Date
  | [], _ => []
  | e :: rest, seen =>
    if seen.contains e.date then uniqueDatesAux rest seen
    else e.date :: uniqueDatesAux rest (e.date :: seen)

/-- First-occurrence list of event dates. -/
def uniqueDates (evs : List ScheduleEvent) : List Date := uniqueDatesAux evs []

/-- Insertion into an ordinal-sorted date list. -/
def insertDate (x : Date) : List Date → List Date
  | [] => [x]
  | y :: ys => if toOrdinal x ≤ toOrdinal y then x :: y :: ys else y :: insertDate x ys

/-- Ascending sort of the grouped dates (Python sorted on date keys). -/
def sortDates : List Date → List Date
  | [] => []
  | x :: xs => insertDate x (sortDates xs)

/-- Start-time comparison key of the per-day sort. -/
def startLe (a b : ScheduleEvent) : Bool :=
  timeLtb a.start_time b.start_time || a.start_time = b.start_time

/-- Stable insertion by start time. -/
def insertByStart (x : ScheduleEvent) : List ScheduleEvent → List ScheduleEvent
  | [] => [x]
  | y :: ys => if startLe x y then x :: y :: ys else y :: insertByStart x ys

/-- Stable sort of one day's lessons by start time. -/
def sortByStart : List ScheduleEvent → List ScheduleEvent
  | [] => []
  | x :: xs => insertByStart x (sortByStart xs)

/-- Rendering of the non-empty weekly digest: for each date in
ascending order, the heading line, the day's lessons sorted by start
time, and a blank separator line; joined with newlines and stripped. -/
def renderWeek (weekly : List ScheduleEvent) : List Char :=
  let dates := sortDates (uniqueDates weekly)
  let lines := dates.flatMap (fun d =>
    fmtHeaderDate d :: ((sortByStart (weekly.filter (·.date = d))).map eventLine ++ [[]]))
  pyStrip (List.intercalate ['\n'] lines)

/-- Fixed message for an empty input event list. -/
def notFoundMessage : List Char := S "Расписание не найдено."

/-- Fixed message for a week with no lessons. -/
def emptyWeekMessage : List Char := S "На эту неделю занятий нет."

/-- Fixed message of the exception handler of format_weekly_schedule.
Every operation in the try block is total on the modelled data, so the
handler is unreachable in the model; the constant is kept to state its
distinctness from the other messages. -/
def errorMessage : List Char := S "Ошибка при обработке расписания."

/-- Translation of format_weekly_schedule.  The reference date is an
explicit argument (the Python default fills in the current date, an
effect outside the model). -/
def format_weekly_schedule (events : List ScheduleEvent) (reference_date : Date) : List Char :=
  if events = [] then notFoundMessage
  else if events.filter (fun e => inWeek reference_date e.date) = [] then emptyWeekMessage
  else renderWeek (events.filter (fun e => inWeek reference_date e.date))

/-- Observer extracting the produced line list of a successful
build_ics run (empty for the guard outcomes). -/
def okLines : BuildIcsResult → List (List Char)
  | .ok lines => lines
  | _ => []

/-! ## Helper lemmas -/

theorem rdropWhile_rdropWhile (p : Char → Bool) (l : List Char) :
    List.rdropWhile p (List.rdropWhile p l) = List.rdropWhile p l := by
  unfold List.rdropWhile
  rw [List.reverse_reverse, List.dropWhile_idempotent]

theorem dropWhile_rdropWhile (p : Char → Bool) (l : List Char) (hl : l.dropWhile p = l) :
    (List.rdropWhile p l).dropWhile p = List.rdropWhile p l := by
  rcases hr : List.rdropWhile p l with _ | ⟨a, t⟩
  · simp
  · obtain ⟨s, hs⟩ := List.rdropWhile_prefix p l
    rw [hr] at hs
    by_cases hpa : p a
    · exfalso
      have hm : l = a :: (t ++ s) := by rw [← hs]; simp
      have h1 : l.dropWhile p = (t ++ s).dropWhile p := by
        rw [hm, List.dropWhile_cons_of_pos hpa]
      have h2 : ((t ++ s).dropWhile p).length ≤ (t ++ s).length :=
        (List.dropWhile_suffix p).length_le
      rw [hl] at h1
      rw [hm] at h1
      have h3 := congrArg List.length h1
      rw [List.length_cons] at h3
      omega
    · rw [List.dropWhile_cons_of_neg hpa]

theorem pyStrip_idem (cs : List Char) : pyStrip (pyStrip cs) = pyStrip cs := by
  unfold pyStrip
  rw [dropWhile_rdropWhile pyIsSpace (cs.dropWhile pyIsSpace) (List.dropWhile_idempotent _ _)]
  exact rdropWhile_rdropWhile pyIsSpace _

theorem mem_strippedStrings {x : List Char} {raw : List (List Char)}
    (h : x ∈ strippedStrings raw) : x ≠ [] ∧ pyStrip x = x := by
  unfold strippedStrings at h
  rw [List.mem_filter] at h
  obtain ⟨hmem, hne⟩ := h
  obtain ⟨r, _, rfl⟩ := List.mem_map.mp hmem
  refine ⟨by simpa using hne, pyStrip_idem r⟩

theorem parseHHMM_valid {tok : List Char} {t : Time}
    (h : parseHHMM tok = some t) : validTime t = true := by
  unfold parseHHMM at h
  split at h
  · split at h
    · split at h
      · rename_i hrange
        injection h with h
        subst h
        simp only [Bool.and_eq_true, decide_eq_true_eq] at hrange
        simp only [validTime, Bool.and_eq_true, decide_eq_true_eq]
        omega
      · exact absurd h (by simp)
    · exact absurd h (by simp)
  · exact absurd h (by simp)

theorem parse_timeslot_valid {cell : Option (List (List Char))} {st en : Time} {p : Option Int}
    (h : parse_timeslot cell = (some st, some en, p)) :
    validTime st = true ∧ validTime en = true := by
  unfold parse_timeslot at h
  split at h
  · simp at h
  · dsimp only at h
    split at h
    · split at h
      · rename_i h1 h2
        simp only [Prod.mk.injEq, Option.some.injEq] at h
        obtain ⟨hst, hen, _⟩ := h
        subst hst
        subst hen
        exact ⟨parseHHMM_valid h1, parseHHMM_valid h2⟩
      · simp at h
    · simp at h

theorem extract_pair_number_nonneg {parts : List (List Char)} {n : Int}
    (h : extract_pair_number parts = some n) : 0 ≤ n := by
  unfold extract_pair_number at h
  generalize parts ++ [joinSpace parts] = l at h
  induction l with
  | nil => simp [List.findSome?] at h
  | cons x xs ih =>
    rw [List.findSome?_cons] at h
    rcases hx : (searchPairNum (pyLower x)).map Int.ofNat with _ | m
    · rw [hx] at h
      exact ih h
    · rw [hx] at h
      injection h with h
      subst h
      rcases hs : searchPairNum (pyLower x) with _ | k
      · rw [hs] at hx; simp at hx
      · rw [hs] at hx
        have hm : m = Int.ofNat k := by simpa using hx.symm
        subst hm
        exact Int.ofNat_nonneg k

theorem parse_timeslot_pair_nonneg {cell : Option (List (List Char))}
    {a b : Option Time} {pn : Option Int}
    (h : parse_timeslot cell = (a, b, pn)) :
    Option.all (fun n => decide (0 ≤ n)) pn = true := by
  unfold parse_timeslot at h
  split at h
  · simp only [Prod.mk.injEq] at h
    rw [← h.2.2]
    rfl
  · dsimp only at h
    split at h
    · split at h
      · simp only [Prod.mk.injEq] at h
        rw [← h.2.2]
        rcases hp : extract_pair_number _ with _ | n
        · rfl
        · simpa using extract_pair_number_nonneg hp
      · simp only [Prod.mk.injEq] at h
        rw [← h.2.2]
        rcases hp : extract_pair_number _ with _ | n
        · rfl
        · simpa using extract_pair_number_nonneg hp
    · simp only [Prod.mk.injEq] at h
      rw [← h.2.2]
      rcases hp : extract_pair_number _ with _ | n
      · rfl
      · simpa using extract_pair_number_nonneg hp

/-! ## Claim C1 -/

/-- Claim C1, corrected.  Every ScheduleEvent produced by
build_event_from_row carries the calendar date taken from its table
header (a plain date with no time component), a title that is non-empty
and unchanged by trimming, start and end fields that are valid clock
times parsed from two-digit hour-minute tokens, and a pair number that,
when present, is a non-negative integer.  The source performs no
ordering check between start and end and accepts a zero pair ordinal,
so the stronger original invariants do not hold (see the
counterexample). -/
theorem C1_extractor_event_invariants
    (hasRow : Bool) (cell : Option (List (List Char))) (anchorRaw : List (List Char))
    (d : Date) (eid teacher extra : Option (List Char)) (ev : ScheduleEvent)
    (h : build_event_from_row hasRow cell anchorRaw d eid teacher extra = some ev) :
    ev.date = d ∧ pyStrip ev.title = ev.title ∧ ev.title ≠ [] ∧
    validTime ev.start_time = true ∧ validTime ev.end_time = true ∧
    Option.all (fun n => decide (0 ≤ n)) ev.pair_number = true := by
  unfold build_event_from_row at h
  split at h
  · exact absurd h (by simp)
  · split at h
    · rename_i st en pn heq
      split at h
      · exact absurd h (by simp)
      · rename_i title rest heqS
        injection h with h
        subst h
        have hmem : title ∈ strippedStrings anchorRaw := by
          rw [heqS]
          exact List.mem_cons_self _ _
        obtain ⟨hne, hstrip⟩ := mem_strippedStrings hmem
        obtain ⟨hst, hen⟩ := parse_timeslot_valid heq
        exact ⟨rfl, hstrip, hne, hst, hen, parse_timeslot_pair_nonneg heq⟩
    · exact absurd h (by simp)

/-- Claim C1, counterexample to the original statement.  A row whose
time cell reads "0 пара, 10:40, 09:00" yields an event whose start
time is not strictly before its end time and whose pair number is
zero, hence not positive. -/
theorem C1_counterexample :
    build_event_from_row true (some [S "0 пара", S "10:40", S "09:00"]) [S "Матан"]
        ⟨2024, 1, 15⟩ none none none =
      some { date := ⟨2024, 1, 15⟩, start_time := ⟨10, 40⟩, end_time := ⟨9, 0⟩,
             title := S "Матан", pair_number := some 0 } ∧
    timeLtb ⟨10, 40⟩ ⟨9, 0⟩ = false ∧ ¬ ((0 : Int) < 0) := by
  refine ⟨by decide, by decide, by decide⟩

/-- Witness for C1: the amended theorem applied at a concrete
well-formed row. -/
theorem C1_witness :
    pyStrip (S "Информатика") = S "Информатика" ∧ S "Информатика" ≠ [] ∧
    validTime ⟨9, 0⟩ = true ∧ validTime ⟨10, 30⟩ = true ∧
    Option.all (fun n => decide (0 ≤ n)) (some (1 : Int)) = true := by
  have h := C1_extractor_event_invariants true
    (some [S "1 пара", S "09:00", S "10:30"]) [S "Информатика"]
    ⟨2024, 1, 1⟩ none none none
    { date := ⟨2024, 1, 1⟩, start_time := ⟨9, 0⟩, end_time := ⟨10, 30⟩,
      title := S "Информатика", pair_number := some 1 }
    (by decide)
  exact ⟨h.2.1, h.2.2.1, h.2.2.2.1, h.2.2.2.2.1, h.2.2.2.2.2⟩

/-! ## Claim C2 -/

/-- Claim C2, confirmed.  For every pair number, build_event_alarms
emits exactly one alarm block with a trigger ten minutes before start
when the pair number is two or three, and exactly two alarm blocks with
triggers seventy and ten minutes before start for every other pair
number, including an absent one. -/
theorem C2_alarm_policy (p : Option Int) :
    (build_event_alarms p).count (S "BEGIN:VALARM")
        = (if p = some 2 ∨ p = some 3 then 1 else 2) ∧
    (build_event_alarms p).filter (fun l => (S "TRIGGER:").isPrefixOf l)
        = (if p = some 2 ∨ p = some 3 then [S "TRIGGER:-PT10M"]
           else [S "TRIGGER:-PT70M", S "TRIGGER:-PT10M"]) := by
  unfold build_event_alarms
  split <;> exact ⟨by decide, by decide⟩

/-! ## Claim C6 -/

/-- Claim C6, confirmed.  With an empty event list build_ics produces
no calendar content and returns the empty-events outcome (the source
logs a warning and returns early, writing nothing); with any dialect
other than mobile or google it never reaches the serialisation stage:
the result is one of the two guard outcomes and no line list is ever
produced. -/
theorem C6_build_ics_guards (pyHash : List Char → Int) (dtstamp target : List Char)
    (events : List ScheduleEvent)
    (h1 : target ≠ S "mobile") (h2 : target ≠ S "google") :
    build_ics pyHash dtstamp [] (S "mobile") = BuildIcsResult.emptyEvents ∧
    build_ics pyHash dtstamp [] (S "google") = BuildIcsResult.emptyEvents ∧
    build_ics pyHash dtstamp [] target = BuildIcsResult.emptyEvents ∧
    build_ics pyHash dtstamp events target
      = (if events = [] then BuildIcsResult.emptyEvents else BuildIcsResult.unknownTarget) := by
  refine ⟨rfl, rfl, rfl, ?_⟩
  unfold build_ics
  by_cases he : events = []
  · rw [if_pos he, if_pos he]
  · rw [if_neg he, if_neg he, if_pos ⟨h1, h2⟩]

/-- Witness for C6 at a concrete unsupported dialect and a concrete
non-empty event list. -/
theorem C6_witness :
    build_ics (fun _ => 0) [] [] (S "mobile") = BuildIcsResult.emptyEvents ∧
    build_ics (fun _ => 0) [] [] (S "google") = BuildIcsResult.emptyEvents ∧
    build_ics (fun _ => 0) [] [] (S "ical") = BuildIcsResult.emptyEvents ∧
    build_ics (fun _ => 0) []
        [{ date := ⟨2024, 1, 1⟩, start_time := ⟨9, 0⟩, end_time := ⟨10, 30⟩, title := S "X" }]
        (S "ical")
      = (if ([{ date := ⟨2024, 1, 1⟩, start_time := ⟨9, 0⟩, end_time := ⟨10, 30⟩,
                title := S "X" }] : List ScheduleEvent) = []
         then BuildIcsResult.emptyEvents else BuildIcsResult.unknownTarget) :=
  C6_build_ics_guards (fun _ => 0) [] (S "ical")
    [{ date := ⟨2024, 1, 1⟩, start_time := ⟨9, 0⟩, end_time := ⟨10, 30⟩, title := S "X" }]
    (by decide) (by decide)

/-! ## Claim C9 -/

/-- Claim C9, confirmed.  slugify_group_name never returns an empty
string, falling back to the fixed slug "schedule"; on the group code
from the spec it returns exactly "15.14d_gg01_24m", which is ASCII
(hence free of Cyrillic codepoints), contains no uppercase letter, and
has no two adjacent separator characters. -/
theorem C9_slugify_total_and_example (group : List Char) :
    slugify_group_name group ≠ [] ∧
    slugify_group_name (S "15.14д-гг01/24м") = S "15.14d_gg01_24m" ∧
    (slugify_group_name (S "15.14д-гг01/24м")).all
        (fun c => c.toNat < 128 && !('A' ≤ c && c ≤ 'Z')) = true ∧
    noAdjacentSeparators (slugify_group_name (S "15.14д-гг01/24м")) = true := by
  refine ⟨?_, by decide, by decide, by decide⟩
  unfold slugify_group_name
  dsimp only
  split
  · decide
  · assumption

/-! ## Claim C5 -/

/-- Claim C5, confirmed.  format_weekly_schedule returns the fixed
not-found message exactly on the empty event list, returns the fixed
empty-week message when the list is non-empty but no event date falls
in the Monday-to-Sunday window of the reference date, and the two
messages differ. -/
theorem C5_weekly_messages (events : List ScheduleEvent) (ref : Date)
    (hne : events ≠ [])
    (hout : ∀ e ∈ events, inWeek ref e.date = false) :
    format_weekly_schedule [] ref = notFoundMessage ∧
    format_weekly_schedule events ref = emptyWeekMessage ∧
    notFoundMessage ≠ emptyWeekMessage := by
  refine ⟨rfl, ?_, by decide⟩
  have hfilter : events.filter (fun e => inWeek ref e.date) = [] := by
    rw [List.filter_eq_nil_iff]
    intro e he
    rw [hout e he]
    simp
  unfold format_weekly_schedule
  rw [if_neg hne, if_pos hfilter]

/-- Witness for C5: one event dated outside the week of the reference
date. -/
theorem C5_witness :
    format_weekly_schedule [] ⟨2024, 1, 3⟩ = notFoundMessage ∧
    format_weekly_schedule
        [{ date := ⟨2024, 1, 13⟩, start_time := ⟨9, 0⟩, end_time := ⟨10, 30⟩, title := S "Философия" }]
        ⟨2024, 1, 3⟩ = emptyWeekMessage ∧
    notFoundMessage ≠ emptyWeekMessage :=
  C5_weekly_messages
    [{ date := ⟨2024, 1, 13⟩, start_time := ⟨9, 0⟩, end_time := ⟨10, 30⟩, title := S "Философия" }]
    ⟨2024, 1, 3⟩ (by decide) (by decide)

/-! ## Claim C10 -/

/-- Claim C10, confirmed.  format_weekly_schedule is total: every call
returns one of the not-found message, the empty-week message, or the
rendered digest of the in-window events — every operation of the try
block is total on the modelled data, so the exception handler is
unreachable — and the handler's fixed error message differs from both
other fixed messages. -/
theorem C10_formatter_total (events : List ScheduleEvent) (ref : Date) :
    (format_weekly_schedule events ref = notFoundMessage ∨
     format_weekly_schedule events ref = emptyWeekMessage ∨
     format_weekly_schedule events ref
        = renderWeek (events.filter (fun e => inWeek ref e.date))) ∧
    errorMessage ≠ notFoundMessage ∧ errorMessage ≠ emptyWeekMessage ∧
    notFoundMessage ≠ emptyWeekMessage := by
  refine ⟨?_, by decide, by decide, by decide⟩
  unfold format_weekly_schedule
  split
  · exact Or.inl rfl
  · split
    · exact Or.inr (Or.inl rfl)
    · exact Or.inr (Or.inr rfl)

/-! ## Claim C7 -/

theorem S_bsbs : S "\\\\" = ['\\', '\\'] := rfl

theorem S_bssemi : S "\\;" = ['\\', ';'] := rfl

theorem S_bscomma : S "\\," = ['\\', ','] := rfl

theorem S_bsn : S "\\n" = ['\\', 'n'] := rfl

theorem escape_ics_nil : escape_ics [] = [] := rfl

theorem escape_ics_cons (c : Char) (cs : List Char) :
    escape_ics (c :: cs) = escChar c ++ escape_ics cs := by
  unfold escape_ics escChar replaceChar
  by_cases h1 : c = '\\'
  · subst h1
    simp [S_bsbs, S_bssemi, S_bscomma, S_bsn]
  · by_cases h2 : c = ';'
    · subst h2
      simp [S_bsbs, S_bssemi, S_bscomma, S_bsn]
    · by_cases h3 : c = ','
      · subst h3
        simp [S_bsbs, S_bssemi, S_bscomma, S_bsn]
      · by_cases h4 : c = '\n'
        · subst h4
          simp [S_bsbs, S_bssemi, S_bscomma, S_bsn]
        · simp [h1, h2, h3, h4]

theorem isEscaped_escChar_append (c : Char) (rest : List Char) :
    isEscapedText (escChar c ++ rest) = isEscapedText rest := by
  unfold escChar
  by_cases h1 : c = '\\'
  · subst h1
    simp [S_bsbs, isEscapedText]
  · by_cases h2 : c = ';'
    · subst h2
      simp [S_bssemi, isEscapedText]
    · by_cases h3 : c = ','
      · subst h3
        simp [S_bscomma, isEscapedText]
      · by_cases h4 : c = '\n'
        · subst h4
          simp [S_bsn, isEscapedText]
        · simp only [if_neg h1, if_neg h2, if_neg h3, if_neg h4, List.singleton_append]
          rw [isEscapedText.eq_def]
          simp [h1, h2, h3, h4]

theorem isEscaped_escape_ics (value : List Char) :
    isEscapedText (escape_ics value) = true := by
  induction value with
  | nil => rfl
  | cons c cs ih => rw [escape_ics_cons, isEscaped_escChar_append, ih]

/-- Claim C7, confirmed.  For every input string the output of
escape_ics contains no unescaped backslash, semicolon, comma, or
newline (it satisfies the text-value grammar checker), and in the event
block of build_ics the escaping is applied to each emitted free-text
field: the SUMMARY, DESCRIPTION, and LOCATION lines all carry the
escaped form of their raw value. -/
theorem C7_escape_applied (value : List Char) (pyHash : List Char → Int)
    (dtstamp target summary color : List Char) (ev : ScheduleEvent) :
    isEscapedText (escape_ics value) = true ∧
    (S "SUMMARY:" ++ escape_ics summary) ∈ eventBlock pyHash dtstamp target ev summary color ∧
    (S "DESCRIPTION:" ++ escape_ics (buildDescription ev))
        ∈ eventBlock pyHash dtstamp target ev summary color ∧
    (S "LOCATION:" ++ escape_ics (match ev.location with | some l => l | none => []))
        ∈ eventBlock pyHash dtstamp target ev summary color := by
  refine ⟨isEscaped_escape_ics value, ?_, ?_, ?_⟩ <;>
    · unfold eventBlock
      simp [List.mem_append]

/-! ## Claim C4 -/

theorem dbm_step (y m : Int) (h2 : 2 ≤ m) (h12 : m ≤ 12) :
    daysBeforeMonth y m = daysBeforeMonth y (m - 1) + daysInMonth y (m - 1) := by
  interval_cases m <;> norm_num [daysBeforeMonth, daysInMonth] <;> omega

theorem toOrdinal_prevDay (d : Date) (h : validDate d = true) :
    toOrdinal (prevDay d) = toOrdinal d - 1 := by
  unfold validDate at h
  simp only [Bool.and_eq_true, decide_eq_true_eq] at h
  obtain ⟨⟨⟨hm1, hm12⟩, hd1⟩, hdm⟩ := h
  unfold prevDay
  split
  · unfold toOrdinal
    dsimp only
    omega
  · split
    · rename_i hday hmonth
      have hstep := dbm_step d.year d.month (by omega) (by omega)
      unfold toOrdinal
      dsimp only
      omega
    · rename_i hday hmonth
      have hm : d.month = 1 := by omega
      have hd : d.day = 1 := by omega
      unfold toOrdinal
      dsimp only
      rw [hm, hd]
      norm_num [daysBeforeMonth, leapAdj]
      split <;> rename_i hleap <;>
        simp only [isLeap, Bool.or_eq_true, Bool.and_eq_true, beq_iff_eq, bne_iff_ne,
          ne_eq] at hleap <;> omega

theorem utcInstantMin_astimezoneUTC (a : AwareDT)
    (hd : validDate a.date = true) (ht : validTime a.time = true)
    (h0 : 0 ≤ a.offMin) (h1 : a.offMin < 1440) :
    utcInstantMin (astimezoneUTC a) = utcInstantMin a := by
  unfold validTime at ht
  simp only [Bool.and_eq_true, decide_eq_true_eq] at ht
  simp only [astimezoneUTC, utcInstantMin]
  split
  · dsimp only
    rw [toOrdinal_prevDay a.date hd]
    omega
  · split
    · omega
    · dsimp only
      omega

/-- Claim C4, confirmed.  For every event field pair, the mobile
dialect emits the start instant as local Moscow wall-clock fields
behind a TZID parameter while the google dialect emits the same
instant converted to UTC with a Z suffix; the UTC instant denoted by
the mobile line (local fields at offset +180 minutes) is exactly the
UTC instant denoted by the google line, and both lines are the ones
placed in the respective event blocks. -/
theorem C4_mobile_google_instants (d : Date) (t : Time)
    (pyHash : List Char → Int) (dtstamp summary color : List Char) (ev : ScheduleEvent)
    (hd : validDate d = true) (ht : validTime t = true) :
    dtstartLineMobile d t = S "DTSTART;TZID=Europe/Moscow:" ++ fmtBasic d t ∧
    dtstartLineGoogle d t
      = S "DTSTART:" ++ fmtBasic (astimezoneUTC ⟨d, t, 180⟩).date (astimezoneUTC ⟨d, t, 180⟩).time ++ S "Z" ∧
    (astimezoneUTC ⟨d, t, 180⟩).offMin = 0 ∧
    utcInstantMin (astimezoneUTC ⟨d, t, 180⟩) = utcInstantMin ⟨d, t, 180⟩ ∧
    dtstartLineMobile ev.date ev.start_time
      ∈ eventBlock pyHash dtstamp (S "mobile") ev summary color ∧
    dtstartLineGoogle ev.date ev.start_time
      ∈ eventBlock pyHash dtstamp (S "google") ev summary color := by
  refine ⟨rfl, rfl, ?_, ?_, ?_, ?_⟩
  · simp only [astimezoneUTC]
    split
    · rfl
    · split
      · rfl
      · rfl
  · exact utcInstantMin_astimezoneUTC ⟨d, t, 180⟩ hd ht (by norm_num) (by norm_num)
  · unfold eventBlock
    have hne : ¬(S "mobile" = S "google") := by decide
    simp [List.mem_append, if_neg hne]
  · unfold eventBlock
    simp [List.mem_append]

/-- Witness for C4 at a concrete early-morning lesson whose UTC instant
falls on the previous calendar day. -/
theorem C4_witness :
    validDate ⟨2024, 1, 1⟩ = true ∧ validTime ⟨1, 30⟩ = true ∧
    utcInstantMin (astimezoneUTC ⟨⟨2024, 1, 1⟩, ⟨1, 30⟩, 180⟩)
      = utcInstantMin ⟨⟨2024, 1, 1⟩, ⟨1, 30⟩, 180⟩ :=
  ⟨by decide, by decide,
    (C4_mobile_google_instants ⟨2024, 1, 1⟩ ⟨1, 30⟩ (fun _ => 0) [] [] []
      { date := ⟨2024, 1, 1⟩, start_time := ⟨1, 30⟩, end_time := ⟨2, 0⟩, title := S "X" }
      (by decide) (by decide)).2.2.2.1⟩

/-! ## Claim C3 -/

theorem consne (a b : Char) (p q : List Char) (h : a ≠ b) : a :: p ≠ b :: q :=
  fun hc => h (List.head_eq_of_cons_eq hc)

theorem count_marker_alarms (p : Option Int) :
    (build_event_alarms p).count (S "BEGIN:VEVENT") = 0 := by
  simp only [build_event_alarms]
  split <;> decide

theorem uid_line_ne (x : List Char) : ¬(S "UID:" ++ x = S "BEGIN:VEVENT") :=
  consne 'U' 'B' _ _ (by decide)

theorem dtstamp_line_ne (x : List Char) : ¬(S "DTSTAMP:" ++ x = S "BEGIN:VEVENT") :=
  consne 'D' 'B' _ _ (by decide)

theorem summary_line_ne (x : List Char) : ¬(S "SUMMARY:" ++ x = S "BEGIN:VEVENT") :=
  consne 'S' 'B' _ _ (by decide)

theorem description_line_ne (x : List Char) : ¬(S "DESCRIPTION:" ++ x = S "BEGIN:VEVENT") :=
  consne 'D' 'B' _ _ (by decide)

theorem location_line_ne (x : List Char) : ¬(S "LOCATION:" ++ x = S "BEGIN:VEVENT") :=
  consne 'L' 'B' _ _ (by decide)

theorem color_line_ne (x : List Char) : ¬(S "COLOR:" ++ x = S "BEGIN:VEVENT") :=
  consne 'C' 'B' _ _ (by decide)

theorem endv_line_ne : ¬(S "END:VEVENT" = S "BEGIN:VEVENT") := by decide

theorem count_marker_block (pyHash : List Char → Int) (dtstamp target : List Char)
    (ev : ScheduleEvent) (summary color : List Char) :
    (eventBlock pyHash dtstamp target ev summary color).count (S "BEGIN:VEVENT") = 1 := by
  simp only [eventBlock]
  rw [List.count_append, List.count_append, List.count_append]
  have hcolor : (if target = S "mobile" then
      (if color = [] then [] else [S "COLOR:" ++ color]) else ([] : List (List Char))).count
        (S "BEGIN:VEVENT") = 0 := by
    split
    · split
      · rfl
      · simp [List.count_cons, color_line_ne]
    · rfl
  have halarm : (if target = S "mobile" then build_event_alarms ev.pair_number
      else ([] : List (List Char))).count (S "BEGIN:VEVENT") = 0 := by
    split
    · exact count_marker_alarms _
    · rfl
  have hstart : ¬((if target = S "google" then dtstartLineGoogle ev.date ev.start_time
      else dtstartLineMobile ev.date ev.start_time) = S "BEGIN:VEVENT") := by
    split
    · exact consne 'D' 'B' _ _ (by decide)
    · exact consne 'D' 'B' _ _ (by decide)
  have hend : ¬((if target = S "google" then dtendLineGoogle ev.date ev.end_time
      else dtendLineMobile ev.date ev.end_time) = S "BEGIN:VEVENT") := by
    split
    · exact consne 'D' 'B' _ _ (by decide)
    · exact consne 'D' 'B' _ _ (by decide)
  rw [hcolor, halarm]
  simp only [List.count_cons, List.count_nil, beq_iff_eq,
    uid_line_ne, dtstamp_line_ne, summary_line_ne, description_line_ne,
    location_line_ne, endv_line_ne, hstart, hend,
    if_true, if_false]
  norm_num
  exact uid_line_ne _

theorem count_marker_buildEventLines (pyHash : List Char → Int) (dtstamp target : List Char)
    (evs : List ScheduleEvent) :
    ∀ counters : List Char → Nat,
    (buildEventLines pyHash dtstamp target counters evs).count (S "BEGIN:VEVENT")
      = evs.length := by
  induction evs with
  | nil => intro counters; rfl
  | cons e rest ih =>
    intro counters
    simp only [buildEventLines]
    rw [List.count_append, count_marker_block, ih]
    simp [Nat.add_comm]

theorem length_insertEvent (x : ScheduleEvent) (l : List ScheduleEvent) :
    (insertEvent x l).length = l.length + 1 := by
  induction l with
  | nil => rfl
  | cons y ys ih =>
    simp only [insertEvent]
    split
    · simp
    · simp [ih]

theorem length_sortEvents (l : List ScheduleEvent) :
    (sortEvents l).length = l.length := by
  induction l with
  | nil => rfl
  | cons x xs ih => simp [sortEvents, length_insertEvent, ih]

/-- Claim C3, confirmed.  On every non-empty event list build_ics
produces line lists for both the mobile and the google dialect, and in
each output the number of lines equal to the event-opening marker is
exactly the number of input events. -/
theorem C3_vevent_count_matches_events (pyHash : List Char → Int) (dtstamp : List Char)
    (events : List ScheduleEvent) (hne : events ≠ []) :
    build_ics pyHash dtstamp events (S "mobile")
      = BuildIcsResult.ok (okLines (build_ics pyHash dtstamp events (S "mobile"))) ∧
    build_ics pyHash dtstamp events (S "google")
      = BuildIcsResult.ok (okLines (build_ics pyHash dtstamp events (S "google"))) ∧
    (okLines (build_ics pyHash dtstamp events (S "mobile"))).count (S "BEGIN:VEVENT")
      = events.length ∧
    (okLines (build_ics pyHash dtstamp events (S "google"))).count (S "BEGIN:VEVENT")
      = events.length := by
  have hm : build_ics pyHash dtstamp events (S "mobile")
      = BuildIcsResult.ok (calendarHeader (S "mobile")
          ++ buildEventLines pyHash dtstamp (S "mobile") (fun _ => 0) (sortEvents events)
          ++ [S "END:VCALENDAR"]) := by
    unfold build_ics
    rw [if_neg hne, if_neg (by simp)]
  have hg : build_ics pyHash dtstamp events (S "google")
      = BuildIcsResult.ok (calendarHeader (S "google")
          ++ buildEventLines pyHash dtstamp (S "google") (fun _ => 0) (sortEvents events)
          ++ [S "END:VCALENDAR"]) := by
    unfold build_ics
    rw [if_neg hne, if_neg (by simp)]
  rw [hm, hg]
  refine ⟨rfl, rfl, ?_, ?_⟩ <;>
    · simp only [okLines]
      rw [List.count_append, List.count_append, count_marker_buildEventLines]
      rw [length_sortEvents]
      have : (calendarHeader (S "mobile")).count (S "BEGIN:VEVENT") = 0 ∧
          (calendarHeader (S "google")).count (S "BEGIN:VEVENT") = 0 ∧
          ([S "END:VCALENDAR"] : List (List Char)).count (S "BEGIN:VEVENT") = 0 := by
        refine ⟨by decide, by decide, by decide⟩
      omega

/-- Witness for C3 at a concrete single-event list. -/
theorem C3_witness :
    build_ics (fun _ => 0) (S "20240901T000000Z")
        [{ date := ⟨2024, 1, 1⟩, start_time := ⟨9, 0⟩, end_time := ⟨10, 30⟩, title := S "X" }]
        (S "mobile")
      = BuildIcsResult.ok (okLines (build_ics (fun _ => 0) (S "20240901T000000Z")
          [{ date := ⟨2024, 1, 1⟩, start_time := ⟨9, 0⟩, end_time := ⟨10, 30⟩, title := S "X" }]
          (S "mobile"))) ∧
    build_ics (fun _ => 0) (S "20240901T000000Z")
        [{ date := ⟨2024, 1, 1⟩, start_time := ⟨9, 0⟩, end_time := ⟨10, 30⟩, title := S "X" }]
        (S "google")
      = BuildIcsResult.ok (okLines (build_ics (fun _ => 0) (S "20240901T000000Z")
          [{ date := ⟨2024, 1, 1⟩, start_time := ⟨9, 0⟩, end_time := ⟨10, 30⟩, title := S "X" }]
          (S "google"))) ∧
    (okLines (build_ics (fun _ => 0) (S "20240901T000000Z")
        [{ date := ⟨2024, 1, 1⟩, start_time := ⟨9, 0⟩, end_time := ⟨10, 30⟩, title := S "X" }]
        (S "mobile"))).count (S "BEGIN:VEVENT")
      = ([{ date := ⟨2024, 1, 1⟩, start_time := ⟨9, 0⟩, end_time := ⟨10, 30⟩,
            title := S "X" }] : List ScheduleEvent).length ∧
    (okLines (build_ics (fun _ => 0) (S "20240901T000000Z")
        [{ date := ⟨2024, 1, 1⟩, start_time := ⟨9, 0⟩, end_time := ⟨10, 30⟩, title := S "X" }]
        (S "google"))).count (S "BEGIN:VEVENT")
      = ([{ date := ⟨2024, 1, 1⟩, start_time := ⟨9, 0⟩, end_time := ⟨10, 30⟩,
            title := S "X" }] : List ScheduleEvent).length :=
  C3_vevent_count_matches_events (fun _ => 0) (S "20240901T000000Z")
    [{ date := ⟨2024, 1, 1⟩, start_time := ⟨9, 0⟩, end_time := ⟨10, 30⟩, title := S "X" }]
    (by decide)

/-! ## Claim C8 -/

/-- Claim C8, code_bug evidence.  The UID fallback concatenates the
summary and the printed start instant through the process-randomised
Python hash builtin: two runs whose hash functions differ (modelled by
two explicit hash parameters) produce different event blocks for an
event without a source element id, while an event carrying a non-empty
element id keeps an identical block across both runs. -/
theorem C8_uid_not_run_stable :
    eventBlock (fun _ => 0) [] (S "google")
        { date := ⟨2024, 1, 1⟩, start_time := ⟨9, 0⟩, end_time := ⟨10, 0⟩,
          title := S "X", element_id := none } (S "Д1 X") []
      ≠ eventBlock (fun _ => 1) [] (S "google")
        { date := ⟨2024, 1, 1⟩, start_time := ⟨9, 0⟩, end_time := ⟨10, 0⟩,
          title := S "X", element_id := none } (S "Д1 X") [] ∧
    eventBlock (fun _ => 0) [] (S "google")
        { date := ⟨2024, 1, 1⟩, start_time := ⟨9, 0⟩, end_time := ⟨10, 0⟩,
          title := S "X", element_id := some (S "42") } (S "Д1 X") []
      = eventBlock (fun _ => 1) [] (S "google")
        { date := ⟨2024, 1, 1⟩, start_time := ⟨9, 0⟩, end_time := ⟨10, 0⟩,
          title := S "X", element_id := some (S "42") } (S "Д1 X") [] := by
  exact ⟨by decide, by decide⟩

end Rasp
